import Mathlib

/-!
Shallow embedding of `src/preprocess.py` (Instagram caption preprocessing
pipeline).  Python strings are modelled as `List Char`, JSON values as the
inductive `JValue`, Python dicts (as produced by `json.loads`, insertion
ordered, unique keys) as association lists `List (PyStr × JValue)`.

External collaborators are modelled as parameters:
  * the LLM (`llm_helper.llm` composed with `PromptTemplate`) is a function
    from the full prompt text to the raw response text;
  * reading the raw-posts file is a parameter of type
    `Except PyStr (List PyDict)` (`.error e` models `FileNotFoundError` /
    `json.JSONDecodeError` with message `e`);
  * writing the processed file is a parameter `Option PyStr`
    (`some e` models an `IOError` with message `e`).

`json.loads` is modelled by an executable recursive-descent parser
(`jsonParse`).  Model restrictions, none of which any theorem below
depends on: numbers are parsed as integers only (no floats / exponents,
no leading-zero check), and string escapes cover the common single
character escapes but not unicode escapes.

Observable effects (`print` calls, oracle invocations, file writes) are
reified: every modelled function returns the list of prompts it sent to
the LLM, the list of diagnostics it printed, and its Python return value
or raised exception.
-/

abbrev PyStr := List Char

/-- JSON values, as produced by Python's `json.loads` (object key order and
duplicate-key resolution follow dict insertion semantics). -/
inductive JValue where
  | null : JValue
  | bool (b : Bool) : JValue
  | num (n : Int) : JValue
  | str (s : PyStr) : JValue
  | arr (elems : List JValue) : JValue
  | obj (fields : List (PyStr × JValue)) : JValue

abbrev PyDict := List (PyStr × JValue)

mutual

def JValue.beqFn : JValue → JValue → Bool
  | .null, .null => true
  | .bool a, .bool c => a = c
  | .num a, .num c => a = c
  | .str a, .str c => a = c
  | .arr xs, .arr ys => JValue.beqL xs ys
  | .obj xs, .obj ys => JValue.beqF xs ys
  | _, _ => false

def JValue.beqL : List JValue → List JValue → Bool
  | [], [] => true
  | x :: xs, y :: ys => JValue.beqFn x y && JValue.beqL xs ys
  | _, _ => false

def JValue.beqF : List (PyStr × JValue) → List (PyStr × JValue) → Bool
  | [], [] => true
  | p :: xs, q :: ys => (p.1 = q.1 : Bool) && JValue.beqFn p.2 q.2 && JValue.beqF xs ys
  | _, _ => false

end

theorem JValue.beq_iff : ∀ a b : JValue, (JValue.beqFn a b = true) ↔ a = b :=
  @JValue.rec
    (fun a => ∀ b, (JValue.beqFn a b = true) ↔ a = b)
    (fun xs => ∀ ys, (JValue.beqL xs ys = true) ↔ xs = ys)
    (fun xs => ∀ ys, (JValue.beqF xs ys = true) ↔ xs = ys)
    (fun p => ∀ q : PyStr × JValue,
      (((p.1 = q.1 : Bool) && JValue.beqFn p.2 q.2) = true) ↔ p = q)
    (fun b => by cases b <;> simp [JValue.beqFn])
    (fun a b => by cases b <;> simp [JValue.beqFn])
    (fun a b => by cases b <;> simp [JValue.beqFn])
    (fun a b => by cases b <;> simp [JValue.beqFn])
    (fun xs ih b => by cases b <;> simp [JValue.beqFn, ih])
    (fun xs ih b => by cases b <;> simp [JValue.beqFn, ih])
    (fun ys => by cases ys <;> simp [JValue.beqL])
    (fun x xs ihx ihxs ys => by
      cases ys with
      | nil => simp [JValue.beqL]
      | cons y ys => simp [JValue.beqL, ihx, ihxs])
    (fun ys => by cases ys <;> simp [JValue.beqF])
    (fun x xs ihx ihxs ys => by
      cases ys with
      | nil => simp [JValue.beqF]
      | cons y ys =>
        rw [show JValue.beqF (x :: xs) (y :: ys) =
              (((x.1 = y.1 : Bool) && JValue.beqFn x.2 y.2) && JValue.beqF xs ys)
            from rfl]
        rw [Bool.and_eq_true, ihx y, ihxs ys, List.cons.injEq])
    (fun k v ih q => by
      cases q with
      | mk k2 v2 => simp [ih])


instance : DecidableEq JValue := fun a b =>
  decidable_of_iff _ (JValue.beq_iff a b)

/-! ### Python string primitives -/

/-- Python `str.find(ch)`: index of the first occurrence, as a `Nat`, or
`none` when absent. -/
def pyFindNat : PyStr → Char → Option Nat
  | [], _ => none
  | x :: xs, c => if x = c then some 0 else (pyFindNat xs c).map (· + 1)

/-- Python `str.rfind(ch)`: index of the last occurrence, as a `Nat`, or
`none` when absent. -/
def pyRFindNat : PyStr → Char → Option Nat
  | [], _ => none
  | x :: xs, c =>
    match pyRFindNat xs c with
    | some k => some (k + 1)
    | none => if x = c then some 0 else none

/-- Python `str.find(ch)` (−1 when absent). -/
def pyFind (s : PyStr) (c : Char) : Int :=
  match pyFindNat s c with
  | some k => (k : Int)
  | none => -1

/-- Python `str.rfind(ch)` (−1 when absent). -/
def pyRFind (s : PyStr) (c : Char) : Int :=
  match pyRFindNat s c with
  | some k => (k : Int)
  | none => -1

/-- Python slicing `s[a:b]` with full negative-index normalisation. -/
def pySlice (s : PyStr) (a b : Int) : PyStr :=
  let n : Int := s.length
  let a2 : Int := if a < 0 then max (n + a) 0 else min a n
  let b2 : Int := if b < 0 then max (n + b) 0 else min b n
  (s.drop a2.toNat).take (b2 - a2).toNat

/-! ### A model of `json.loads` -/

def isJsonWs (c : Char) : Bool :=
  c = ' ' || c = '\n' || c = '\t' || c = '\r'

def skipWs : PyStr → PyStr
  | [] => []
  | c :: cs => if isJsonWs c then skipWs cs else c :: cs

/-- Dict insertion `d[k] = v`: replace the value of an existing key in
place, otherwise append a new entry (Python dict semantics). -/
def dictSet (d : PyDict) (k : PyStr) (v : JValue) : PyDict :=
  match d with
  | [] => [(k, v)]
  | (k2, v2) :: rest =>
    if k2 = k then (k2, v) :: rest else (k2, v2) :: dictSet rest k v

/-- Key membership test (`k in d`). -/
def dictContains (d : PyDict) (k : PyStr) : Bool :=
  d.any (fun kv => kv.1 = k)

/-- Dict lookup (`d[k]` / `d.get(k)`), `none` when the key is absent. -/
def dictGet : PyDict → PyStr → Option JValue
  | [], _ => none
  | (k2, v) :: rest, k => if k2 = k then some v else dictGet rest k

/-- JSON string-body scanner: input starts after the opening quote, returns
the decoded content and the remainder after the closing quote. -/
def scanStringBody : PyStr → Option (PyStr × PyStr)
  | [] => none
  | c :: rest =>
    if c = Char.ofNat 34 then some ([], rest)
    else if c = Char.ofNat 92 then
      match rest with
      | [] => none
      | e :: rest2 =>
        let d : Option Char :=
          if e = Char.ofNat 34 then some (Char.ofNat 34)
          else if e = Char.ofNat 92 then some (Char.ofNat 92)
          else if e = '/' then some '/'
          else if e = 'n' then some '\n'
          else if e = 't' then some '\t'
          else if e = 'r' then some '\r'
          else if e = 'b' then some (Char.ofNat 8)
          else if e = 'f' then some (Char.ofNat 12)
          else none
        match d with
        | some d2 => (scanStringBody rest2).map (fun p => (d2 :: p.1, p.2))
        | none => none
    else (scanStringBody rest).map (fun p => (c :: p.1, p.2))

/-- Greedy digit scan, returning the value accumulated so far and the rest. -/
def scanDigits (acc : Nat) : PyStr → Nat × PyStr
  | [] => (acc, [])
  | c :: rest =>
    if c.isDigit then scanDigits (acc * 10 + (c.toNat - 48)) rest
    else (acc, c :: rest)

mutual

def parseValue : Nat → PyStr → Option (JValue × PyStr)
  | 0, _ => none
  | fuel + 1, s =>
    match skipWs s with
    | [] => none
    | c :: rest =>
      if c = Char.ofNat 123 then
        match skipWs rest with
        | d :: rest2 =>
          if d = Char.ofNat 125 then some (.obj [], rest2)
          else (parseMembers fuel [] (d :: rest2)).map (fun p => (.obj p.1, p.2))
        | [] => none
      else if c = '[' then
        match skipWs rest with
        | d :: rest2 =>
          if d = ']' then some (.arr [], rest2)
          else (parseElems fuel [] (d :: rest2)).map (fun p => (.arr p.1, p.2))
        | [] => none
      else if c = Char.ofNat 34 then
        (scanStringBody rest).map (fun p => (.str p.1, p.2))
      else if c = '-' then
        match rest with
        | d :: _ =>
          if d.isDigit then
            let p := scanDigits 0 rest
            some (.num (-(p.1 : Int)), p.2)
          else none
        | [] => none
      else if c.isDigit then
        let p := scanDigits 0 (c :: rest)
        some (.num (p.1 : Int), p.2)
      else if c = 't' then
        match rest with
        | 'r' :: 'u' :: 'e' :: r => some (.bool true, r)
        | _ => none
      else if c = 'f' then
        match rest with
        | 'a' :: 'l' :: 's' :: 'e' :: r => some (.bool false, r)
        | _ => none
      else if c = 'n' then
        match rest with
        | 'u' :: 'l' :: 'l' :: r => some (.null, r)
        | _ => none
      else none

def parseMembers : Nat → PyDict → PyStr → Option (PyDict × PyStr)
  | 0, _, _ => none
  | fuel + 1, acc, s =>
    match skipWs s with
    | c :: rest =>
      if c = Char.ofNat 34 then
        match scanStringBody rest with
        | none => none
        | some (key, r1) =>
          match skipWs r1 with
          | ':' :: r2 =>
            match parseValue fuel r2 with
            | none => none
            | some (v, r3) =>
              let acc2 := dictSet acc key v
              match skipWs r3 with
              | ',' :: r4 => parseMembers fuel acc2 r4
              | d :: r4 =>
                if d = Char.ofNat 125 then some (acc2, r4) else none
              | [] => none
          | _ => none
      else none
    | [] => none

def parseElems : Nat → List JValue → PyStr → Option (List JValue × PyStr)
  | 0, _, _ => none
  | fuel + 1, acc, s =>
    match parseValue fuel s with
    | none => none
    | some (v, r) =>
      match skipWs r with
      | ',' :: r2 => parseElems fuel (acc ++ [v]) r2
      | ']' :: r2 => some (acc ++ [v], r2)
      | _ => none

end

/-- Model of `json.loads`: parse a complete JSON document, rejecting
trailing non-whitespace. -/
def jsonParse (s : PyStr) : Option JValue :=
  match parseValue (s.length + 2) s with
  | some (v, rest) => if skipWs rest = [] then some v else none
  | none => none

/-! ### Python `str()` / `repr()` of JSON-loaded values (used only to build
the prompt text when a caption is not a string) -/

mutual

def jrepr : JValue → PyStr
  | .null => ("None").data
  | .bool true => ("True").data
  | .bool false => ("False").data
  | .num n => (toString n).data
  | .str s => Char.ofNat 39 :: s ++ [Char.ofNat 39]
  | .arr es => '[' :: jreprElems es ++ [']']
  | .obj fs => Char.ofNat 123 :: jreprFields fs ++ [Char.ofNat 125]

def jreprElems : List JValue → PyStr
  | [] => []
  | [e] => jrepr e
  | e :: es => jrepr e ++ (", ").data ++ jreprElems es

def jreprFields : List (PyStr × JValue) → PyStr
  | [] => []
  | [kv] => Char.ofNat 39 :: kv.1 ++ Char.ofNat 39 :: (": ").data ++ jrepr kv.2
  | kv :: fs =>
    Char.ofNat 39 :: kv.1 ++ Char.ofNat 39 :: (": ").data ++ jrepr kv.2
      ++ (", ").data ++ jreprFields fs

end

/-- Python `str(v)` for a JSON-loaded value. -/
def pyStrOf : JValue → PyStr
  | .str s => s
  | v => jrepr v

/-! ### Effects, exceptions, and results -/

/-- Python exceptions that the modelled code can raise. -/
inductive PyErr where
  | outputParser (msg : PyStr)
  | keyError (key : PyStr)
  | typeError (msg : PyStr)
  | attributeError (msg : PyStr)
deriving DecidableEq

/-- One diagnostic `print` call, with the dynamic data it interpolates. -/
inductive LogEvent where
  | readError (e : PyStr)
  | skipNoCaption (post : PyDict)
  | extractFailParse (captionHead : PyStr) (response : PyStr)
  | extractError (captionHead : PyStr) (err : PyStr)
  | noEnriched
  | unifyFailParse (response : PyStr)
  | unifyError (err : PyStr)
  | writeError (e : PyStr)
deriving DecidableEq

instance {ε α : Type} [DecidableEq ε] [DecidableEq α] : DecidableEq (Except ε α) :=
  fun x y =>
    match x, y with
    | .ok a, .ok b =>
      if h : a = b then isTrue (by rw [h]) else isFalse (by simp [h])
    | .error a, .error b =>
      if h : a = b then isTrue (by rw [h]) else isFalse (by simp [h])
    | .ok _, .error _ => isFalse (fun h => Except.noConfusion h)
    | .error _, .ok _ => isFalse (fun h => Except.noConfusion h)

/-- Result of a modelled call: the prompts sent to the LLM, the diagnostics
printed, and the returned value or raised exception. -/
structure CallRes (α : Type) where
  calls : List PyStr
  logs : List LogEvent
  result : Except PyErr α
deriving DecidableEq

/-- Observable outcome of a whole `process_posts` run. -/
structure RunResult where
  calls : List PyStr
  logs : List LogEvent
  written : Option (List PyDict)
  uncaught : Option PyErr
deriving DecidableEq

/-! ### `clean_json_response` -/

def invalidJsonMsg (response : PyStr) : PyStr :=
  ("Invalid JSON content:\n").data ++ response

/-- `clean_json_response` (src/preprocess.py lines 53-60): slice from the
first brace to one past the last closing brace, `json.loads` the slice, and
raise `OutputParserException` carrying the full raw response on failure. -/
def clean_json_response (response : PyStr) : Except PyStr JValue :=
  let start := pyFind response (Char.ofNat 123)
  let stop := pyRFind response (Char.ofNat 125) + 1
  match jsonParse (pySlice response start stop) with
  | some v => .ok v
  | none => .error (invalidJsonMsg response)

/-! ### `extract_metadata` -/

/-- The extraction prompt: `template` of src/preprocess.py lines 64-73 with
`\x7bpost\x7d` substituted. -/
def extractTemplate (post : PyStr) : PyStr :=
  ("\n    You are given a Instagram post. You need to extract number of lines, language of the post, and tags.\n    1. Return a valid JSON. No preamble. \n    2. JSON object should have exactly three keys: line_count, language, and tags. \n    3. tags is an array of text tags. Extract a maximum of two tags.\n    4. Language should be English or Hinglish (Hinglish means Hindi + English)\n\n    Here is the actual post on which you need to perform this task:  \n    ").data
    ++ post ++ ("\n    ").data

/-- `extract_metadata` (src/preprocess.py lines 63-83): one LLM call, parse
via `clean_json_response`; on parse failure print a diagnostic (slicing the
caption to its first 100 characters, which raises `TypeError` when the
caption is not a string) and re-raise the `OutputParserException`. -/
def extract_metadata (llm : PyStr → PyStr) (post : JValue) : CallRes JValue :=
  let prompt := extractTemplate (pyStrOf post)
  let response := llm prompt
  match clean_json_response response with
  | .ok v => ⟨[prompt], [], .ok v⟩
  | .error msg =>
    match post with
    | .str s =>
      ⟨[prompt], [.extractFailParse (s.take 100) response], .error (.outputParser msg)⟩
    | _ => ⟨[prompt], [], .error (.typeError (("caption is not subscriptable").data))⟩

/-! ### `get_unified_tags` -/

def tagsKey : PyStr := ("tags").data

def captionKey : PyStr := ("caption").data

/-- Python iteration over a JSON-loaded value (`set.update(v)` /
`for tag in v`): lists yield elements, strings yield 1-character strings,
dicts yield their keys; everything else raises `TypeError`. -/
def pyIterJ : JValue → Except PyErr (List JValue)
  | .arr es => .ok es
  | .str s => .ok (s.map (fun c => .str [c]))
  | .obj fs => .ok (fs.map (fun kv => .str kv.1))
  | _ => .error (.typeError (("object is not iterable").data))

/-- Python hashability of a JSON-loaded value: strings, numbers, booleans
and `None` are hashable; lists and dicts are not, so adding one to a set
raises `TypeError: unhashable type`. -/
def jHashable : JValue → Bool
  | .arr _ => false
  | .obj _ => false
  | _ => true

/-- Add one element to a Python set, modelled as a first-insertion-ordered
duplicate-free list (Python set iteration order is not deterministic; this
model fixes first-insertion order, and no claim depends on the order).
Adding an unhashable element raises `TypeError`. -/
def setAdd (acc : List JValue) (x : JValue) : Except PyErr (List JValue) :=
  if jHashable x then .ok (if x ∈ acc then acc else acc ++ [x])
  else .error (.typeError (("unhashable type").data))

/-- `set.update(xs)`: add the elements in order, stopping at the first
unhashable element with its `TypeError`. -/
def setAddAll (acc : List JValue) : List JValue → Except PyErr (List JValue)
  | [] => .ok acc
  | x :: xs =>
    match setAdd acc x with
    | .error e => .error e
    | .ok acc2 => setAddAll acc2 xs

/-- The tag-aggregation loop of `get_unified_tags` (src/preprocess.py lines
87-89): `unique_tags.update(post['tags'])` over the batch; a post without a
`tags` key raises `KeyError`, a non-iterable `tags` value or an unhashable
tag element raises `TypeError`. -/
def collectTagsAux (acc : List JValue) : List PyDict → Except PyErr (List JValue)
  | [] => .ok acc
  | p :: ps =>
    match dictGet p tagsKey with
    | none => .error (.keyError tagsKey)
    | some v =>
      match pyIterJ v with
      | .error e => .error e
      | .ok es =>
        match setAddAll acc es with
        | .error e => .error e
        | .ok acc2 => collectTagsAux acc2 ps

def collectTags (posts : List PyDict) : Except PyErr (List JValue) :=
  collectTagsAux [] posts

/-- Python `','.join(xs)`: raises `TypeError` at the first non-string. -/
def joinTags : List JValue → Except PyErr PyStr
  | [] => .ok []
  | [v] =>
    match v with
    | .str s => .ok s
    | _ => .error (.typeError (("sequence item: expected str instance").data))
  | v :: rest =>
    match v with
    | .str s => (joinTags rest).map (fun r => s ++ ',' :: r)
    | _ => .error (.typeError (("sequence item: expected str instance").data))

def noTagsMsg : PyStr := ("No tags found to unify.").data

/-- The unification prompt: `template` of src/preprocess.py lines 96-108
with `\x7btags\x7d` substituted (the doubled braces of line 104 render as
single braces in the prompt). -/
def unifyTemplate (tags : PyStr) : PyStr :=
  ("I will give you a list of tags. You need to unify tags with the following requirements:\n    1. Tags are unified and merged to create a shorter list. \n       Example 1: \"Self-Love & Confidence\", \"Love\" can be merged into a single tag \"Self-Love & Confidence\". \n       Example 2: \"Travel\", \"Adventure\", \"trip\" can be mapped to \"Travel&Adventure\".\n       Example 3: \"Friendship\", \"Family\", \"Couples\" can be mapped to \"Family & Couples\".\n    2. Each tag should follow title case convention. Example: \"Motivation\", \"Job Search\".\n    3. Output should be a JSON object. No preamble.\n    4. Output should have a mapping of original tags to unified tags. \n       For example: \x7b\"Love\": \"Self-Love & Confidence\", \"Travel\": \"Travel&Adventure\", \"Couple\": \"Family&Couples\"\x7d\n\n    Here is the list of tags: \n    ").data
    ++ tags ++ ("\n    ").data

/-- `get_unified_tags` (src/preprocess.py lines 86-117): aggregate the tag
set, raise `OutputParserException` when it is empty (before any LLM call),
otherwise one LLM call parsed via `clean_json_response`, printing a
diagnostic and re-raising on parse failure. -/
def get_unified_tags (llm : PyStr → PyStr) (posts_with_metadata : List PyDict) :
    CallRes JValue :=
  match collectTags posts_with_metadata with
  | .error e => ⟨[], [], .error e⟩
  | .ok unique_tags =>
    if unique_tags.isEmpty then ⟨[], [], .error (.outputParser noTagsMsg)⟩
    else
      match joinTags unique_tags with
      | .error e => ⟨[], [], .error e⟩
      | .ok joined =>
        let prompt := unifyTemplate joined
        let response := llm prompt
        match clean_json_response response with
        | .ok v => ⟨[prompt], [], .ok v⟩
        | .error msg =>
          ⟨[prompt], [.unifyFailParse response], .error (.outputParser msg)⟩

/-! ### The tag-rewrite step (src/preprocess.py lines 41-44) -/

/-- `unified_tags.get(tag, tag)` for a dict `m`: JSON object keys are
strings, so a non-string tag always falls back to itself. -/
def tagLook (m : PyDict) (tag : JValue) : JValue :=
  match tag with
  | .str s =>
    match dictGet m s with
    | some v => v
    | none => tag
  | _ => tag

/-- Helper for `pySetList`: drop every element already seen. -/
def pySetAux (seen : List JValue) : List JValue → List JValue
  | [] => []
  | x :: xs => if x ∈ seen then pySetAux seen xs else x :: pySetAux (x :: seen) xs

/-- Python-set model used for the comprehension
`\x7bunified_tags.get(tag, tag) for tag in current_tags\x7d` followed by
`list(...)`: duplicates removed, first occurrence kept. -/
def pySetList (l : List JValue) : List JValue := pySetAux [] l

/-- The set comprehension of line 43 applied to one post's tag list.  An
empty iteration never evaluates `.get`, so a non-dict `unified` only raises
`AttributeError` when there is at least one tag. -/
def rewriteTagSet (unified : JValue) (current : List JValue) :
    Except PyErr (List JValue) :=
  match current with
  | [] => .ok []
  | _ =>
    match unified with
    | .obj m => .ok (pySetList (current.map (tagLook m)))
    | _ => .error (.attributeError (("no attribute get").data))

/-- The rewrite loop (lines 41-44): replace each enriched post's `tags`
with the deduplicated mapped tags; `post['tags']` raises `KeyError` when
absent. -/
def rewritePosts (unified : JValue) : List PyDict → Except PyErr (List PyDict)
  | [] => .ok []
  | p :: ps =>
    match dictGet p tagsKey with
    | none => .error (.keyError tagsKey)
    | some cur =>
      match pyIterJ cur with
      | .error e => .error e
      | .ok elems =>
        match rewriteTagSet unified elems with
        | .error e => .error e
        | .ok newTags =>
          (rewritePosts unified ps).map (fun rest => dictSet p tagsKey (.arr newTags) :: rest)

/-! ### `process_posts` -/

/-- Python dict merge `post | metadata`: right operand wins on key
collision; keys of `post` keep their position, new keys of `metadata` are
appended in order. -/
def dictMerge (a b : PyDict) : PyDict :=
  a.map (fun kv =>
    match dictGet b kv.1 with
    | some v => (kv.1, v)
    | none => kv)
  ++ b.filter (fun kv => !dictContains a kv.1)

/-- The per-post enrichment loop of `process_posts` (src/preprocess.py
lines 16-29): skip posts without `caption` (with a diagnostic), extract
metadata, merge it into the post (`post | metadata`, a `TypeError` when the
parsed metadata is not a dict), and on `OutputParserException` print a
diagnostic (slicing `post['caption'][:100]` again) and continue. -/
def enrichPosts (llm : PyStr → PyStr) : List PyDict → CallRes (List PyDict)
  | [] => ⟨[], [], .ok []⟩
  | post :: rest =>
    match dictGet post captionKey with
    | none =>
      let r := enrichPosts llm rest
      ⟨r.calls, .skipNoCaption post :: r.logs, r.result⟩
    | some cv =>
      let e := extract_metadata llm cv
      match e.result with
      | .ok md =>
        match md with
        | .obj mfields =>
          let r := enrichPosts llm rest
          ⟨e.calls ++ r.calls, e.logs ++ r.logs,
            r.result.map (fun l => dictMerge post mfields :: l)⟩
        | _ => ⟨e.calls, e.logs, .error (.typeError (("unsupported operand types for merge").data))⟩
      | .error (.outputParser msg) =>
        match cv with
        | .str s =>
          let r := enrichPosts llm rest
          ⟨e.calls ++ r.calls,
            e.logs ++ .extractError (s.take 100) msg :: r.logs, r.result⟩
        | _ => ⟨e.calls, e.logs, .error (.typeError (("caption is not subscriptable").data))⟩
      | .error err => ⟨e.calls, e.logs, .error err⟩

/-- `process_posts` (src/preprocess.py lines 8-50).  `loadResult` models
`json.load(open(raw_file_path))` (`.error` = `FileNotFoundError` or
`JSONDecodeError`, both caught at lines 12-14); `writeErr` models an
`IOError` from the final `open`/`json.dump` (caught at lines 49-50).
`written = some l` means the destination file was written with contents
`l`; `uncaught = some e` means the run terminated with exception `e`
escaping `process_posts`. -/
def process_posts (llm : PyStr → PyStr) (loadResult : Except PyStr (List PyDict))
    (writeErr : Option PyStr) : RunResult :=
  match loadResult with
  | .error e => ⟨[], [.readError e], none, none⟩
  | .ok posts =>
    let en := enrichPosts llm posts
    match en.result with
    | .error err => ⟨en.calls, en.logs, none, some err⟩
    | .ok enriched =>
      match enriched with
      | [] => ⟨en.calls, en.logs ++ [.noEnriched], none, none⟩
      | _ :: _ =>
        let un := get_unified_tags llm enriched
        match un.result with
        | .error (.outputParser msg) =>
          ⟨en.calls ++ un.calls, en.logs ++ un.logs ++ [.unifyError msg], none, none⟩
        | .error err => ⟨en.calls ++ un.calls, en.logs ++ un.logs, none, some err⟩
        | .ok unified =>
          match rewritePosts unified enriched with
          | .error err => ⟨en.calls ++ un.calls, en.logs ++ un.logs, none, some err⟩
          | .ok finalPosts =>
            match writeErr with
            | some e =>
              ⟨en.calls ++ un.calls, en.logs ++ un.logs ++ [.writeError e], none, none⟩
            | none => ⟨en.calls ++ un.calls, en.logs ++ un.logs, some finalPosts, none⟩

/-! ### Concrete batches and oracles used by the scenario theorems and the
witnesses below -/

def c1PostA : PyDict := [(captionKey, .str (("Great trip with family!").data))]

def c1PostB : PyDict := [(captionKey, .str (("Job search tips").data))]

def c1RespA : PyStr :=
  ("\x7b\"line_count\":1,\"language\":\"English\",\"tags\":[\"Travel\",\"Family\"]\x7d").data

def c1RespB : PyStr :=
  ("\x7b\"line_count\":1,\"language\":\"English\",\"tags\":[\"Job Search\"]\x7d").data

def c1RespU : PyStr :=
  ("\x7b\"Travel\":\"Travel & Adventure\",\"Family\":\"Family & Couples\"\x7d").data

/-- Oracle for the end-to-end scenario: the two extraction responses and the
single unification response (the batch vocabulary is
`Travel,Family,Job Search`). -/
def c1Llm (prompt : PyStr) : PyStr :=
  if prompt = extractTemplate (("Great trip with family!").data) then c1RespA
  else if prompt = extractTemplate (("Job search tips").data) then c1RespB
  else if prompt = unifyTemplate (("Travel,Family,Job Search").data) then c1RespU
  else []

def c1ExpA : PyDict :=
  [(captionKey, .str (("Great trip with family!").data)),
   (("line_count").data, .num 1),
   (("language").data, .str (("English").data)),
   (tagsKey, .arr [.str (("Travel & Adventure").data), .str (("Family & Couples").data)])]

def c1ExpB : PyDict :=
  [(captionKey, .str (("Job search tips").data)),
   (("line_count").data, .num 1),
   (("language").data, .str (("English").data)),
   (tagsKey, .arr [.str (("Job Search").data)])]

def w3Post : PyDict := [(captionKey, .str (("bad caption").data))]

/-- Oracle whose response contains no JSON at all. -/
def w3Llm : PyStr → PyStr := fun _ => ("no json here").data

def w4Post : PyDict := [(("id").data, .num 1)]

def w5Post : PyDict := [(captionKey, .str (("hello world").data))]

/-- Oracle returning metadata with an empty tag list. -/
def w5Llm : PyStr → PyStr :=
  fun _ => ("\x7b\"line_count\":1,\"language\":\"English\",\"tags\":[]\x7d").data

def w5Merged : PyDict :=
  [(captionKey, .str (("hello world").data)),
   (("line_count").data, .num 1),
   (("language").data, .str (("English").data)),
   (tagsKey, .arr [])]

def w8Post : PyDict := [(captionKey, .str (("hi").data))]

/-- Oracle returning a metadata object with one tag; the same response also
serves as a well-formed (if pointless) unification mapping. -/
def w8Llm : PyStr → PyStr := fun _ => ("\x7b\"tags\":[\"A\"]\x7d").data

def w8Merged : PyDict :=
  [(captionKey, .str (("hi").data)), (tagsKey, .arr [.str (("A").data)])]

def w8Unified : JValue := .obj [(tagsKey, .arr [.str (("A").data)])]

def c9Post : PyDict :=
  [(captionKey, .str (("check").data)), (("line_count").data, .num 99)]

/-- Oracle returning metadata whose `line_count` collides with a field the
post already has. -/
def c9Llm : PyStr → PyStr :=
  fun _ => ("\x7b\"line_count\":1,\"language\":\"English\",\"tags\":[\"X\"]\x7d").data

def c9Merged : PyDict :=
  [(captionKey, .str (("check").data)),
   (("line_count").data, .num 1),
   (("language").data, .str (("English").data)),
   (tagsKey, .arr [.str (("X").data)])]

def w10Post : PyDict := [(captionKey, .str (("yo").data))]

/-- Oracle returning metadata without a `tags` key, which extraction never
validates. -/
def w10Llm : PyStr → PyStr :=
  fun _ => ("\x7b\"line_count\":1,\"language\":\"English\"\x7d").data

def w10Merged : PyDict :=
  [(captionKey, .str (("yo").data)),
   (("line_count").data, .num 1),
   (("language").data, .str (("English").data))]

/-! ## Lemmas about the Python-set model -/

theorem mem_pySetAux (a : JValue) :
    ∀ (l seen : List JValue), (a ∈ pySetAux seen l ↔ (a ∈ l ∧ a ∉ seen)) := by
  intro l
  induction l with
  | nil => intro seen; simp [pySetAux]
  | cons x xs ih =>
    intro seen
    by_cases hx : x ∈ seen
    · rw [show pySetAux seen (x :: xs) = pySetAux seen xs from by simp [pySetAux, hx]]
      rw [ih]
      constructor
      · rintro ⟨h1, h2⟩
        exact ⟨List.mem_cons_of_mem x h1, h2⟩
      · rintro ⟨h1, h2⟩
        rcases List.mem_cons.mp h1 with h | h
        · subst h; exact absurd hx h2
        · exact ⟨h, h2⟩
    · rw [show pySetAux seen (x :: xs) = x :: pySetAux (x :: seen) xs from by
        simp [pySetAux, hx]]
      simp only [List.mem_cons, ih]
      constructor
      · rintro (h | ⟨h1, h2⟩)
        · subst h; exact ⟨Or.inl rfl, hx⟩
        · exact ⟨Or.inr h1, fun hs => h2 (Or.inr hs)⟩
      · rintro ⟨h | h, h2⟩
        · exact Or.inl h
        · by_cases hax : a = x
          · exact Or.inl hax
          · refine Or.inr ⟨h, fun hor => ?_⟩
            rcases hor with h3 | h3
            · exact hax h3
            · exact h2 h3

theorem nodup_pySetAux : ∀ (l seen : List JValue), (pySetAux seen l).Nodup := by
  intro l
  induction l with
  | nil => intro seen; simp [pySetAux]
  | cons x xs ih =>
    intro seen
    by_cases hx : x ∈ seen
    · rw [show pySetAux seen (x :: xs) = pySetAux seen xs from by simp [pySetAux, hx]]
      exact ih seen
    · rw [show pySetAux seen (x :: xs) = x :: pySetAux (x :: seen) xs from by
        simp [pySetAux, hx]]
      refine List.nodup_cons.mpr ⟨fun hmem => ?_, ih (x :: seen)⟩
      exact ((mem_pySetAux x xs (x :: seen)).mp hmem).2 (List.mem_cons_self x seen)

theorem pySetAux_eq_self :
    ∀ (l seen : List JValue), l.Nodup → (∀ a ∈ l, a ∉ seen) → pySetAux seen l = l := by
  intro l
  induction l with
  | nil => intro seen _ _; rfl
  | cons x xs ih =>
    intro seen hnd hs
    have hx : x ∉ seen := hs x (List.mem_cons_self x xs)
    rw [show pySetAux seen (x :: xs) = x :: pySetAux (x :: seen) xs from by
      simp [pySetAux, hx]]
    have hnd2 := List.nodup_cons.mp hnd
    congr 1
    refine ih (x :: seen) hnd2.2 (fun a ha => ?_)
    intro hmem
    rcases List.mem_cons.mp hmem with h | h
    · subst h; exact hnd2.1 ha
    · exact hs a (List.mem_cons_of_mem x ha) h

theorem mem_pySetList (a : JValue) (l : List JValue) : a ∈ pySetList l ↔ a ∈ l := by
  rw [pySetList, mem_pySetAux]
  simp

theorem nodup_pySetList (l : List JValue) : (pySetList l).Nodup :=
  nodup_pySetAux l []

theorem pySetList_eq_self (l : List JValue) (h : l.Nodup) : pySetList l = l :=
  pySetAux_eq_self l [] h (fun a _ => List.not_mem_nil a)

theorem map_eq_self_of_mem {f : JValue → JValue} :
    ∀ l : List JValue, (∀ a ∈ l, f a = a) → l.map f = l := by
  intro l h
  induction l with
  | nil => rfl
  | cons x xs ih =>
    simp only [List.map_cons, h x (List.mem_cons_self x xs)]
    rw [ih (fun a ha => h a (List.mem_cons_of_mem x ha))]

/-! ## Lemmas about dict operations -/

theorem dictGet_mem : ∀ (d : PyDict) (k : PyStr) (v : JValue),
    dictGet d k = some v → (k, v) ∈ d := by
  intro d k v
  induction d with
  | nil => intro h; simp [dictGet] at h
  | cons kv rest ih =>
    intro h
    rcases kv with ⟨k2, v2⟩
    by_cases hk : k2 = k
    · subst hk
      simp [dictGet] at h
      subst h
      exact List.mem_cons_self _ _
    · simp [dictGet, hk] at h
      exact List.mem_cons_of_mem _ (ih h)

theorem dictGet_append_some (d1 d2 : PyDict) (k : PyStr) (v : JValue)
    (h : dictGet d1 k = some v) : dictGet (d1 ++ d2) k = some v := by
  induction d1 with
  | nil => simp [dictGet] at h
  | cons kv rest ih =>
    rcases kv with ⟨k2, v2⟩
    by_cases hk : k2 = k
    · subst hk; simp [dictGet] at h ⊢; exact h
    · simp [dictGet, hk] at h ⊢; exact ih h

theorem dictGet_append_none (d1 d2 : PyDict) (k : PyStr)
    (h : dictGet d1 k = none) : dictGet (d1 ++ d2) k = dictGet d2 k := by
  induction d1 with
  | nil => simp
  | cons kv rest ih =>
    rcases kv with ⟨k2, v2⟩
    by_cases hk : k2 = k
    · subst hk; simp [dictGet] at h
    · simp [dictGet, hk] at h ⊢; exact ih h

theorem dictContains_eq_isSome (d : PyDict) (k : PyStr) :
    dictContains d k = (dictGet d k).isSome := by
  induction d with
  | nil => simp [dictContains, dictGet]
  | cons kv rest ih =>
    rcases kv with ⟨k2, v2⟩
    by_cases hk : k2 = k <;> simp [dictContains, dictGet, hk] <;>
      rw [← ih] <;> simp [dictContains]

theorem dictGet_mergeLeft (a b : PyDict) (k : PyStr) :
    dictGet (a.map (fun kv =>
      match dictGet b kv.1 with
      | some v => (kv.1, v)
      | none => kv)) k
      = (dictGet a k).map (fun va => (dictGet b k).getD va) := by
  induction a with
  | nil => simp [dictGet]
  | cons kv rest ih =>
    rcases kv with ⟨k2, v2⟩
    by_cases hk : k2 = k
    · subst hk
      cases hb : dictGet b k2 <;> simp [dictGet, hb]
    · cases hb : dictGet b k2 <;> simp [dictGet, hk, hb, ih]

theorem dictGet_filterNot (b a : PyDict) (k : PyStr) :
    dictGet (b.filter (fun kv => !dictContains a kv.1)) k
      = if dictContains a k then none else dictGet b k := by
  induction b with
  | nil => simp [dictGet]
  | cons kv rest ih =>
    rcases kv with ⟨k2, v2⟩
    by_cases hk : k2 = k
    · subst hk
      by_cases hc : dictContains a k2 <;> simp [dictGet, hc, List.filter, ih]
    · by_cases hc : dictContains a k2 <;> simp [dictGet, hk, hc, List.filter, ih]

theorem dictMerge_get_right (a b : PyDict) (k : PyStr) (v : JValue)
    (h : dictGet b k = some v) : dictGet (dictMerge a b) k = some v := by
  unfold dictMerge
  cases ha : dictGet a k with
  | some va =>
    apply dictGet_append_some
    rw [dictGet_mergeLeft, ha, h]
    rfl
  | none =>
    rw [dictGet_append_none]
    · rw [dictGet_filterNot, dictContains_eq_isSome, ha]
      simpa using h
    · rw [dictGet_mergeLeft, ha]
      rfl

theorem dictMerge_get_left (a b : PyDict) (k : PyStr)
    (h : dictGet b k = none) : dictGet (dictMerge a b) k = dictGet a k := by
  unfold dictMerge
  cases ha : dictGet a k with
  | some va =>
    apply dictGet_append_some
    rw [dictGet_mergeLeft, ha, h]
    rfl
  | none =>
    rw [dictGet_append_none]
    · rw [dictGet_filterNot, dictContains_eq_isSome, ha]
      simpa using h
    · rw [dictGet_mergeLeft, ha]
      rfl

/-! ## Lemmas about `find` / `rfind` / slicing, and `clean_json_response` on
brace-free responses -/

theorem pyFindNat_eq_none (s : PyStr) (c : Char) (h : c ∉ s) :
    pyFindNat s c = none := by
  induction s with
  | nil => rfl
  | cons x xs ih =>
    have hx : ¬(x = c) := fun he => h (he ▸ List.mem_cons_self x xs)
    have hxs : c ∉ xs := fun hm => h (List.mem_cons_of_mem x hm)
    simp [pyFindNat, hx, ih hxs]

theorem pyRFindNat_drop (s : PyStr) (c : Char) :
    ∀ k : Nat, pyRFindNat s c = some k → ∃ t, s.drop k = c :: t := by
  induction s with
  | nil => intro k h; simp [pyRFindNat] at h
  | cons x xs ih =>
    intro k h
    rw [pyRFindNat] at h
    cases hr : pyRFindNat xs c with
    | some k0 =>
      rw [hr] at h
      have hk : k = k0 + 1 := by
        simpa using h.symm
      subst hk
      simpa using ih k0 hr
    | none =>
      rw [hr] at h
      by_cases hx : x = c
      · simp [hx] at h
        subst hx
        have hk : k = 0 := h.symm
        subst hk
        exact ⟨xs, rfl⟩
      · simp [hx] at h

theorem drop_cons_lt_length (s : PyStr) (k : Nat) (c : Char) (t : PyStr)
    (h : s.drop k = c :: t) : k < s.length := by
  by_contra hk
  push_neg at hk
  rw [List.drop_eq_nil_of_le hk] at h
  exact List.noConfusion h

theorem pySlice_neg_one_of_le (s : PyStr) (b : Int) (hb : 0 ≤ b)
    (h : b ≤ (s.length : Int) - 1) : pySlice s (-1) b = [] := by
  unfold pySlice
  have hn1 : (1 : Int) ≤ (s.length : Int) := by omega
  have ha2 : max ((s.length : Int) + -1) 0 = (s.length : Int) - 1 := by
    rw [max_eq_left]
    · ring
    · omega
  have hb2 : min b (s.length : Int) = b := min_eq_left (by omega)
  simp only [show ((-1 : Int) < 0) = True from by norm_num, show ¬((0:Int) ≤ -1) from by norm_num,
    if_true]
  rw [if_neg (by omega : ¬(b < 0))]
  rw [ha2, hb2]
  have : (b - ((s.length : Int) - 1)).toNat = 0 := by
    rw [Int.toNat_eq_zero]
    omega
  rw [this, List.take_zero]

theorem pySlice_neg_one_last (s : PyStr) (c : Char) (t : PyStr) (k : Nat)
    (hd : s.drop k = c :: t) (hk : k + 1 = s.length) :
    pySlice s (-1) ((k : Int) + 1) = [c] := by
  unfold pySlice
  have hn1 : (1 : Int) ≤ (s.length : Int) := by omega
  have ha2 : max ((s.length : Int) + -1) 0 = (k : Int) := by
    rw [max_eq_left] <;> omega
  have hb2 : min ((k : Int) + 1) (s.length : Int) = (k : Int) + 1 := by
    rw [min_eq_left] <;> omega
  simp only [show ((-1 : Int) < 0) = True from by norm_num, if_true]
  rw [if_neg (by omega : ¬((k : Int) + 1 < 0))]
  rw [ha2, hb2]
  have h1 : ((k : Int) + 1 - (k : Int)).toNat = 1 := by
    norm_num
  have h2 : ((k : Int)).toNat = k := Int.toNat_natCast k
  rw [h1, h2, hd]
  rfl

theorem jsonParse_nil : jsonParse [] = none := rfl

theorem jsonParse_closeBrace : jsonParse [Char.ofNat 125] = none := by decide

theorem clean_json_no_brace (r : PyStr) (hnb : Char.ofNat 123 ∉ r) :
    clean_json_response r = .error (invalidJsonMsg r) := by
  simp only [clean_json_response]
  have hf : pyFind r (Char.ofNat 123) = -1 := by
    unfold pyFind
    rw [pyFindNat_eq_none r _ hnb]
  rw [hf]
  cases hr : pyRFindNat r (Char.ofNat 125) with
  | none =>
    have hj : pyRFind r (Char.ofNat 125) = -1 := by
      unfold pyRFind
      rw [hr]
    rw [hj]
    have hs : pySlice r (-1) (-1 + 1) = [] := by
      have : (-1 : Int) + 1 = 0 := by norm_num
      rw [this]
      by_cases h0 : r.length = 0
      · rcases List.length_eq_zero.mp h0 with rfl
        rfl
      · exact pySlice_neg_one_of_le r 0 le_rfl (by omega)
    rw [hs, jsonParse_nil]
  | some j =>
    have hj : pyRFind r (Char.ofNat 125) = (j : Int) := by
      unfold pyRFind
      rw [hr]
    rw [hj]
    obtain ⟨t, ht⟩ := pyRFindNat_drop r _ j hr
    have hlt : j < r.length := drop_cons_lt_length r j _ t ht
    by_cases hend : j + 1 = r.length
    · have hs : pySlice r (-1) ((j : Int) + 1) = [Char.ofNat 125] :=
        pySlice_neg_one_last r _ t j ht hend
      rw [hs, jsonParse_closeBrace]
    · have hs : pySlice r (-1) ((j : Int) + 1) = [] := by
        apply pySlice_neg_one_of_le r _ (by omega)
        omega
      rw [hs, jsonParse_nil]

/-! ## Lemmas about the per-post enrichment loop -/

theorem extract_metadata_fail (llm : PyStr → PyStr) (c : PyStr) (msg : PyStr)
    (hfail : clean_json_response (llm (extractTemplate c)) = .error msg) :
    extract_metadata llm (.str c) = ⟨[extractTemplate c],
      [.extractFailParse (c.take 100) (llm (extractTemplate c))],
      .error (.outputParser msg)⟩ := by
  simp only [extract_metadata, pyStrOf]
  rw [hfail]

theorem enrichPosts_cons_fail (llm : PyStr → PyStr) (p : PyDict) (suf : List PyDict)
    (c : PyStr) (msg : PyStr)
    (hcap : dictGet p captionKey = some (.str c))
    (hfail : clean_json_response (llm (extractTemplate c)) = .error msg) :
    enrichPosts llm (p :: suf) = ⟨
      extractTemplate c :: (enrichPosts llm suf).calls,
      .extractFailParse (c.take 100) (llm (extractTemplate c)) ::
        .extractError (c.take 100) msg :: (enrichPosts llm suf).logs,
      (enrichPosts llm suf).result⟩ := by
  simp only [enrichPosts, hcap, extract_metadata_fail llm c msg hfail]
  simp

theorem enrichPosts_append (llm : PyStr → PyStr) :
    ∀ (pre suf : List PyDict) (lp : List PyDict),
      (enrichPosts llm pre).result = .ok lp →
      enrichPosts llm (pre ++ suf) = ⟨
        (enrichPosts llm pre).calls ++ (enrichPosts llm suf).calls,
        (enrichPosts llm pre).logs ++ (enrichPosts llm suf).logs,
        ((enrichPosts llm suf).result).map (fun l => lp ++ l)⟩ := by
  intro pre
  induction pre with
  | nil =>
    intro suf lp h
    simp only [enrichPosts] at h
    obtain rfl : lp = [] := by simpa using h.symm
    simp only [List.nil_append, enrichPosts]
    rcases hs : enrichPosts llm suf with ⟨cs, ls, res⟩
    cases res <;> simp [Except.map]
  | cons p pre ih =>
    intro suf lp h
    cases hcap : dictGet p captionKey with
    | none =>
      simp only [enrichPosts, hcap] at h
      rw [List.cons_append]
      simp only [enrichPosts, hcap, ih suf lp h]
      simp [List.cons_append]
    | some cv =>
      cases he : (extract_metadata llm cv).result with
      | ok md =>
        cases md with
        | obj mfields =>
          simp only [enrichPosts, hcap, he] at h
          cases hr : (enrichPosts llm pre).result with
          | error e0 => rw [hr] at h; simp [Except.map] at h
          | ok l0 =>
            rw [hr] at h
            obtain rfl : lp = dictMerge p mfields :: l0 := by
              simpa [Except.map] using h.symm
            rw [List.cons_append]
            simp only [enrichPosts, hcap, he, ih suf l0 hr]
            rcases hs : (enrichPosts llm suf).result with e1 | l1 <;>
              simp [Except.map, List.cons_append, List.append_assoc]
        | null => simp [enrichPosts, hcap, he] at h
        | bool b => simp [enrichPosts, hcap, he] at h
        | num n => simp [enrichPosts, hcap, he] at h
        | str s => simp [enrichPosts, hcap, he] at h
        | arr es => simp [enrichPosts, hcap, he] at h
      | error err =>
        cases err with
        | outputParser msg =>
          cases cv with
          | str s =>
            simp only [enrichPosts, hcap, he] at h
            rw [List.cons_append]
            simp only [enrichPosts, hcap, he, ih suf lp h]
            simp [List.cons_append]
          | null => simp [enrichPosts, hcap, he] at h
          | bool b => simp [enrichPosts, hcap, he] at h
          | num n => simp [enrichPosts, hcap, he] at h
          | arr es => simp [enrichPosts, hcap, he] at h
          | obj fs => simp [enrichPosts, hcap, he] at h
        | keyError k => simp [enrichPosts, hcap, he] at h
        | typeError m2 => simp [enrichPosts, hcap, he] at h
        | attributeError m2 => simp [enrichPosts, hcap, he] at h

/-! ## Lemmas about tag aggregation -/

theorem collectTagsAux_ok_nil :
    ∀ (l : List PyDict),
      (∀ p ∈ l, ∃ v, dictGet p tagsKey = some v ∧ pyIterJ v = .ok []) →
      ∀ acc, collectTagsAux acc l = .ok acc := by
  intro l
  induction l with
  | nil => intro _ acc; rfl
  | cons p ps ih =>
    intro h acc
    obtain ⟨v, hv, hit⟩ := h p (List.mem_cons_self p ps)
    simp only [collectTagsAux, hv, hit, setAddAll]
    exact ih (fun q hq => h q (List.mem_cons_of_mem p hq)) acc

theorem setAddAll_ok :
    ∀ (es : List JValue), (∀ e ∈ es, jHashable e = true) →
      ∀ acc, ∃ acc2, setAddAll acc es = .ok acc2 := by
  intro es
  induction es with
  | nil => intro _ acc; exact ⟨acc, rfl⟩
  | cons x xs ih =>
    intro h acc
    have hx : jHashable x = true := h x (List.mem_cons_self x xs)
    simp only [setAddAll, setAdd, hx, if_true]
    exact ih (fun e he => h e (List.mem_cons_of_mem x he)) _

theorem collectTagsAux_keyError :
    ∀ (l : List PyDict),
      (∀ p ∈ l, ∀ v, dictGet p tagsKey = some v →
        ∃ es, pyIterJ v = .ok es ∧ ∀ e ∈ es, jHashable e = true) →
      (∃ p ∈ l, dictGet p tagsKey = none) →
      ∀ acc, collectTagsAux acc l = .error (.keyError tagsKey) := by
  intro l
  induction l with
  | nil =>
    rintro _ ⟨p, hp, _⟩
    exact absurd hp (List.not_mem_nil p)
  | cons p ps ih =>
    intro hwf hmiss acc
    cases hv : dictGet p tagsKey with
    | none => simp [collectTagsAux, hv]
    | some v =>
      obtain ⟨es, hes, hh⟩ := hwf p (List.mem_cons_self p ps) v hv
      obtain ⟨acc2, hacc⟩ := setAddAll_ok es hh acc
      simp only [collectTagsAux, hv, hes, hacc]
      have hmiss2 : ∃ q ∈ ps, dictGet q tagsKey = none := by
        rcases hmiss with ⟨q, hq, hqn⟩
        rcases List.mem_cons.mp hq with rfl | hq2
        · rw [hv] at hqn; exact Option.noConfusion hqn
        · exact ⟨q, hq2, hqn⟩
      exact ih (fun q hq => hwf q (List.mem_cons_of_mem p hq)) hmiss2 _

/-! ## Lemmas about the tag rewrite -/

theorem tagLook_fixed (m : PyDict) (hfix : ∀ kv ∈ m, tagLook m kv.2 = kv.2) :
    ∀ v, tagLook m (tagLook m v) = tagLook m v := by
  intro v
  cases v with
  | str s =>
    cases h : dictGet m s with
    | none => simp [tagLook, h]
    | some w =>
      have hw := hfix (s, w) (dictGet_mem m s w h)
      simp only [tagLook, h]
      exact hw
  | null => simp [tagLook]
  | bool b => simp [tagLook]
  | num n => simp [tagLook]
  | arr es => simp [tagLook]
  | obj fs => simp [tagLook]

/-! ## Claim theorems -/

/-- Claim C2: fallback law — for every tag mapping `m` and every tag `t` in
an enriched post's tag list that is not a key of `m`, the rewrite step
(src/preprocess.py lines 41-44) keeps `t` in that post's final tag list
unchanged. -/
theorem claim_C2_fallback (m : PyDict) (current : List JValue) (t : PyStr)
    (out : List JValue) (hmem : JValue.str t ∈ current)
    (hnk : dictGet m t = none)
    (hrw : rewriteTagSet (.obj m) current = .ok out) : JValue.str t ∈ out := by
  cases current with
  | nil => exact absurd hmem (List.not_mem_nil _)
  | cons c0 cs =>
    simp only [rewriteTagSet] at hrw
    have hout : out = pySetList ((c0 :: cs).map (tagLook m)) := by
      simpa using hrw.symm
    subst hout
    rw [mem_pySetList]
    have hl : tagLook m (.str t) = .str t := by simp [tagLook, hnk]
    rw [← hl]
    exact List.mem_map_of_mem (tagLook m) hmem

/-- Claim C2 witness: a mapped tag list where the unmapped tag
`Job Search` survives the rewrite. -/
theorem claim_C2_fallback_witness :
    JValue.str (("Job Search").data) ∈
      ([.str (("Self-Love & Confidence").data), .str (("Job Search").data)] :
        List JValue) :=
  claim_C2_fallback
    [((("Love").data), .str (("Self-Love & Confidence").data))]
    [.str (("Love").data), .str (("Job Search").data)]
    (("Job Search").data)
    [.str (("Self-Love & Confidence").data), .str (("Job Search").data)]
    (by decide) (by decide) (by decide)

/-- Claim C7: idempotence of mapping application — under the spec's
assumption that canonical (mapped) tags are fixed points of the mapping,
applying the rewrite step a second time to an already-rewritten tag list
produces the same list again. -/
theorem claim_C7_idempotent (m : PyDict) (current out : List JValue)
    (hfix : ∀ kv ∈ m, tagLook m kv.2 = kv.2)
    (h1 : rewriteTagSet (.obj m) current = .ok out) :
    rewriteTagSet (.obj m) out = .ok out := by
  cases current with
  | nil =>
    simp only [rewriteTagSet] at h1
    obtain rfl : out = [] := by simpa using h1.symm
    rfl
  | cons c0 cs =>
    simp only [rewriteTagSet] at h1
    have hout : out = pySetList ((c0 :: cs).map (tagLook m)) := by
      simpa using h1.symm
    have hfix2 : ∀ x ∈ out, tagLook m x = x := by
      intro x hx
      rw [hout, mem_pySetList] at hx
      obtain ⟨c, _, rfl⟩ := List.mem_map.mp hx
      exact tagLook_fixed m hfix c
    have hnd : out.Nodup := by
      rw [hout]
      exact nodup_pySetList _
    have hmap : out.map (tagLook m) = out := map_eq_self_of_mem out hfix2
    cases out with
    | nil => rfl
    | cons o os =>
      simp only [rewriteTagSet]
      rw [hmap, pySetList_eq_self _ hnd]

/-- Claim C7 witness: rewriting `[Love, Love, Zen]` with the mapping
`Love to Self-Love & Confidence` once gives `[Self-Love & Confidence, Zen]`,
and a second application leaves it unchanged. -/
theorem claim_C7_idempotent_witness :
    rewriteTagSet
      (.obj [((("Love").data), .str (("Self-Love & Confidence").data))])
      [.str (("Self-Love & Confidence").data), .str (("Zen").data)]
      = .ok [.str (("Self-Love & Confidence").data), .str (("Zen").data)] :=
  claim_C7_idempotent
    [((("Love").data), .str (("Self-Love & Confidence").data))]
    [.str (("Love").data), .str (("Love").data), .str (("Zen").data)]
    [.str (("Self-Love & Confidence").data), .str (("Zen").data)]
    (by decide) (by decide)

/-- Claim C6: for every response text with no opening brace,
`clean_json_response` never succeeds — it raises a parse error whose
message carries the full raw response text as a suffix. -/
theorem claim_C6_no_brace (r : PyStr) (hnb : Char.ofNat 123 ∉ r) :
    clean_json_response r = .error (invalidJsonMsg r) ∧ r <:+ invalidJsonMsg r :=
  ⟨clean_json_no_brace r hnb, ⟨("Invalid JSON content:\n").data, rfl⟩⟩

/-- Claim C6 witness: a concrete brace-free response (which even contains a
closing brace) makes `clean_json_response` fail with the full text in the
error message. -/
theorem claim_C6_no_brace_witness :
    clean_json_response (("nothing to see here\x7d").data)
        = .error (invalidJsonMsg (("nothing to see here\x7d").data))
    ∧ (("nothing to see here\x7d").data) <:+
        invalidJsonMsg (("nothing to see here\x7d").data) :=
  claim_C6_no_brace (("nothing to see here\x7d").data) (by decide)

set_option maxRecDepth 400000 in
/-- Claim C9 counterexample: the claim says `post | metadata` keeps the
post's own value on a key collision, but Python's dict merge lets the right
operand win: a post that already has `line_count = 99` ends up with the
metadata's `line_count = 1` after enrichment. -/
theorem claim_C9_merge_cex :
    (enrichPosts c9Llm [c9Post]).result = .ok [c9Merged]
    ∧ dictGet c9Post (("line_count").data) = some (.num 99)
    ∧ dictGet c9Merged (("line_count").data) = some (.num 1)
    ∧ dictGet c9Merged (("line_count").data) ≠ some (.num 99) := by
  refine ⟨by decide, by decide, by decide, by decide⟩

/-- Claim C9 (amended): in the merge `post | metadata`, the metadata's
value wins on a key collision; the post's own value survives only for keys
the metadata does not contain. -/
theorem claim_C9_merge_amended (a b : PyDict) (k : PyStr) :
    (∀ v, dictGet b k = some v → dictGet (dictMerge a b) k = some v)
    ∧ (dictGet b k = none → dictGet (dictMerge a b) k = dictGet a k) :=
  ⟨fun v h => dictMerge_get_right a b k v h, fun h => dictMerge_get_left a b k h⟩

/-- Claim C9 (amended) witness: the colliding `line_count` takes the
metadata's value, and `caption` (absent from the metadata) keeps the
post's value. -/
theorem claim_C9_merge_amended_witness :
    dictGet (dictMerge c9Post [((("line_count").data), .num 1)]) (("line_count").data)
        = some (.num 1)
    ∧ dictGet (dictMerge c9Post [((("line_count").data), .num 1)]) captionKey
        = dictGet c9Post captionKey :=
  ⟨(claim_C9_merge_amended c9Post [((("line_count").data), .num 1)]
      (("line_count").data)).1 (.num 1) (by decide),
   (claim_C9_merge_amended c9Post [((("line_count").data), .num 1)]
      captionKey).2 (by decide)⟩

/-- Claim C4: if the enriched sequence is empty after per-post extraction,
`process_posts` prints a diagnostic and aborts — the LLM receives no
further prompt (in particular the unifier is never called) and no
destination file is written. -/
theorem claim_C4_empty_batch (llm : PyStr → PyStr) (posts : List PyDict)
    (w : Option PyStr) (h : (enrichPosts llm posts).result = .ok []) :
    process_posts llm (.ok posts) w =
      ⟨(enrichPosts llm posts).calls,
       (enrichPosts llm posts).logs ++ [.noEnriched], none, none⟩ := by
  simp only [process_posts, h]

/-- Claim C4 witness: a batch whose single post lacks a caption enriches to
the empty sequence; the run logs the skip and the abort, makes no LLM call,
and writes nothing. -/
theorem claim_C4_empty_batch_witness :
    process_posts w3Llm (.ok [w4Post]) none =
      ⟨(enrichPosts w3Llm [w4Post]).calls,
       (enrichPosts w3Llm [w4Post]).logs ++ [.noEnriched], none, none⟩
    ∧ (enrichPosts w3Llm [w4Post]).calls = []
    ∧ (enrichPosts w3Llm [w4Post]).logs = [.skipNoCaption w4Post] :=
  ⟨claim_C4_empty_batch w3Llm [w4Post] none (by decide), by decide, by decide⟩

/-- Claim C5: when every enriched post has an empty tag collection, the
vocabulary is empty, `get_unified_tags` raises the empty-vocabulary
`OutputParserException` without calling the LLM, and the run aborts with
the `Error unifying tags` diagnostic and no output file. -/
theorem claim_C5_empty_vocab (llm : PyStr → PyStr) (posts : List PyDict)
    (q : PyDict) (qs : List PyDict) (w : Option PyStr)
    (h1 : (enrichPosts llm posts).result = .ok (q :: qs))
    (h3 : ∀ p ∈ q :: qs, ∃ v, dictGet p tagsKey = some v ∧ pyIterJ v = .ok []) :
    get_unified_tags llm (q :: qs) = ⟨[], [], .error (.outputParser noTagsMsg)⟩
    ∧ process_posts llm (.ok posts) w =
        ⟨(enrichPosts llm posts).calls,
         (enrichPosts llm posts).logs ++ [.unifyError noTagsMsg], none, none⟩ := by
  have hu : get_unified_tags llm (q :: qs) = ⟨[], [], .error (.outputParser noTagsMsg)⟩ := by
    simp only [get_unified_tags, collectTags]
    rw [collectTagsAux_ok_nil (q :: qs) h3 []]
    rfl
  refine ⟨hu, ?_⟩
  simp only [process_posts, h1, hu]
  simp

/-- Claim C5 witness: one post whose extracted metadata has `tags: []` —
the unifier is never invoked and the run aborts after the diagnostic. -/
theorem claim_C5_empty_vocab_witness :
    get_unified_tags w5Llm [w5Merged] = ⟨[], [], .error (.outputParser noTagsMsg)⟩
    ∧ process_posts w5Llm (.ok [w5Post]) none =
        ⟨(enrichPosts w5Llm [w5Post]).calls,
         (enrichPosts w5Llm [w5Post]).logs ++ [.unifyError noTagsMsg], none, none⟩ :=
  claim_C5_empty_vocab w5Llm [w5Post] w5Merged [] none (by decide)
    (fun p hp => by
      have hp2 : p = w5Merged := by simpa using hp
      subst hp2
      exact ⟨.arr [], by decide, by decide⟩)

/-- Claim C10: extraction never checks for a `tags` key, so whenever some
successfully enriched post lacks `tags` (and every present `tags` value in
the batch is iterable with hashable elements, so that no `TypeError` fires
first), the aggregation loop raises a `KeyError` that nothing catches: the
run terminates with the uncaught exception and no output file. -/
theorem claim_C10_missing_tags (llm : PyStr → PyStr) (posts : List PyDict)
    (q : PyDict) (qs : List PyDict) (w : Option PyStr)
    (h1 : (enrichPosts llm posts).result = .ok (q :: qs))
    (hwf : ∀ p ∈ q :: qs, ∀ v, dictGet p tagsKey = some v →
      ∃ es, pyIterJ v = .ok es ∧ ∀ e ∈ es, jHashable e = true)
    (hmiss : ∃ p ∈ q :: qs, dictGet p tagsKey = none) :
    (process_posts llm (.ok posts) w).uncaught = some (.keyError tagsKey)
    ∧ (process_posts llm (.ok posts) w).written = none := by
  have hu : get_unified_tags llm (q :: qs) = ⟨[], [], .error (.keyError tagsKey)⟩ := by
    simp only [get_unified_tags, collectTags]
    rw [collectTagsAux_keyError (q :: qs) hwf hmiss []]
  have hres : process_posts llm (.ok posts) w =
      ⟨(enrichPosts llm posts).calls ++ [], (enrichPosts llm posts).logs ++ [],
        none, some (.keyError tagsKey)⟩ := by
    simp only [process_posts, h1, hu]
  rw [hres]
  exact ⟨rfl, rfl⟩

/-- Claim C10 witness: the oracle answers without a `tags` key; the run
ends in an uncaught `KeyError` and writes nothing. -/
theorem claim_C10_missing_tags_witness :
    (process_posts w10Llm (.ok [w10Post]) none).uncaught = some (.keyError tagsKey)
    ∧ (process_posts w10Llm (.ok [w10Post]) none).written = none :=
  claim_C10_missing_tags w10Llm [w10Post] w10Merged [] none (by decide)
    (fun p hp v hv => by
      have hp2 : p = w10Merged := by simpa using hp
      subst hp2
      rw [show dictGet w10Merged tagsKey = none from by decide] at hv
      exact Option.noConfusion hv)
    ⟨w10Merged, by decide, by decide⟩

/-- Claim C8 counterexample: the claim says load errors propagate to the
top level uncaught, but `process_posts` catches them (lines 12-14): on a
missing raw file the run prints the diagnostic and returns normally — no
exception escapes, and nothing is written. -/
theorem claim_C8_fatal_cex :
    (process_posts w3Llm (.error (("No such file or directory").data)) none).uncaught
        = none
    ∧ (process_posts w3Llm (.error (("No such file or directory").data)) none).logs
        = [.readError (("No such file or directory").data)]
    ∧ (process_posts w3Llm (.error (("No such file or directory").data)) none).written
        = none := by
  refine ⟨rfl, rfl, rfl⟩

/-- Claim C8 (amended): load errors and write errors are both caught inside
`process_posts`: a diagnostic is printed at the point of failure, no output
is recorded as written, and the run terminates normally (no exception
escapes) rather than by an uncaught error. -/
theorem claim_C8_fatal_amended :
    (∀ (llm : PyStr → PyStr) (e : PyStr) (w : Option PyStr),
      process_posts llm (.error e) w = ⟨[], [.readError e], none, none⟩)
    ∧ (∀ (llm : PyStr → PyStr) (posts : List PyDict) (q : PyDict) (qs : List PyDict)
        (unified : JValue) (finalPosts : List PyDict) (ew : PyStr),
        (enrichPosts llm posts).result = .ok (q :: qs) →
        (get_unified_tags llm (q :: qs)).result = .ok unified →
        rewritePosts unified (q :: qs) = .ok finalPosts →
        process_posts llm (.ok posts) (some ew) =
          ⟨(enrichPosts llm posts).calls ++ (get_unified_tags llm (q :: qs)).calls,
           (enrichPosts llm posts).logs ++ (get_unified_tags llm (q :: qs)).logs
             ++ [.writeError ew],
           none, none⟩) := by
  constructor
  · intro llm e w
    rfl
  · intro llm posts q qs unified finalPosts ew h1 h2 h3
    simp only [process_posts, h1, h2, h3]

/-- Claim C8 (amended) witness: a concrete missing-file run and a concrete
unwritable-destination run, both ending with a caught diagnostic and no
uncaught exception. -/
theorem claim_C8_fatal_amended_witness :
    process_posts w8Llm (.error (("boom").data)) none
        = ⟨[], [.readError (("boom").data)], none, none⟩
    ∧ process_posts w8Llm (.ok [w8Post]) (some (("disk full").data)) =
        ⟨(enrichPosts w8Llm [w8Post]).calls
           ++ (get_unified_tags w8Llm [w8Merged]).calls,
         (enrichPosts w8Llm [w8Post]).logs
           ++ (get_unified_tags w8Llm [w8Merged]).logs
           ++ [.writeError (("disk full").data)],
         none, none⟩ :=
  ⟨claim_C8_fatal_amended.1 w8Llm (("boom").data) none,
   claim_C8_fatal_amended.2 w8Llm [w8Post] w8Merged [] w8Unified [w8Merged]
     (("disk full").data) (by decide) (by decide) (by decide)⟩

/-- Claim C3: per-post failure isolation — wherever a post with caption `c`
sits in the batch, if the oracle response for it fails to parse, the
enriched sequence is exactly the one produced by the surrounding posts (the
failing post is entirely absent), the two diagnostics are printed in place,
and processing of the remaining posts continues unchanged. -/
theorem claim_C3_isolation (llm : PyStr → PyStr) (pre suf : List PyDict)
    (p : PyDict) (c : PyStr) (msg : PyStr) (lp : List PyDict)
    (hcap : dictGet p captionKey = some (.str c))
    (hfail : clean_json_response (llm (extractTemplate c)) = .error msg)
    (hpre : (enrichPosts llm pre).result = .ok lp) :
    enrichPosts llm (pre ++ p :: suf) = ⟨
      (enrichPosts llm pre).calls
        ++ extractTemplate c :: (enrichPosts llm suf).calls,
      (enrichPosts llm pre).logs
        ++ .extractFailParse (c.take 100) (llm (extractTemplate c))
        :: .extractError (c.take 100) msg :: (enrichPosts llm suf).logs,
      ((enrichPosts llm suf).result).map (fun l => lp ++ l)⟩ := by
  rw [enrichPosts_append llm pre (p :: suf) lp hpre,
    enrichPosts_cons_fail llm p suf c msg hcap hfail]

/-- Claim C3 witness: a one-post batch whose oracle response has no JSON —
the enriched output is empty, both diagnostics are printed, and the calls
are exactly the one extraction prompt. -/
theorem claim_C3_isolation_witness :
    enrichPosts w3Llm ([] ++ w3Post :: []) = ⟨
      (enrichPosts w3Llm []).calls
        ++ extractTemplate (("bad caption").data) :: (enrichPosts w3Llm []).calls,
      (enrichPosts w3Llm []).logs
        ++ .extractFailParse ((("bad caption").data).take 100)
             (w3Llm (extractTemplate (("bad caption").data)))
        :: .extractError ((("bad caption").data).take 100)
             (invalidJsonMsg (("no json here").data))
        :: (enrichPosts w3Llm []).logs,
      ((enrichPosts w3Llm []).result).map (fun l => [] ++ l)⟩ :=
  claim_C3_isolation w3Llm [] [] w3Post (("bad caption").data)
    (invalidJsonMsg (("no json here").data)) []
    (by decide) (by decide) (by decide)

set_option maxRecDepth 1000000 in
/-- Claim C1: end-to-end scenario — with the two given extraction responses
and the single unification response, `process_posts` writes both posts;
post A's final tags equal, as a set, `Travel & Adventure` and
`Family & Couples`, and post B's final tags equal, as a set, `Job Search`
(unchanged via the identity fallback). -/
theorem claim_C1_end_to_end :
    (process_posts c1Llm (.ok [c1PostA, c1PostB]) none).written = some [c1ExpA, c1ExpB]
    ∧ (process_posts c1Llm (.ok [c1PostA, c1PostB]) none).uncaught = none
    ∧ dictGet c1ExpA tagsKey =
        some (.arr [.str (("Travel & Adventure").data), .str (("Family & Couples").data)])
    ∧ dictGet c1ExpB tagsKey = some (.arr [.str (("Job Search").data)])
    ∧ (∀ v : JValue,
        v ∈ ([.str (("Travel & Adventure").data), .str (("Family & Couples").data)] :
            List JValue)
          ↔ (v = .str (("Travel & Adventure").data)
              ∨ v = .str (("Family & Couples").data)))
    ∧ (∀ v : JValue,
        v ∈ ([.str (("Job Search").data)] : List JValue)
          ↔ v = .str (("Job Search").data)) := by
  refine ⟨by decide, by decide, by decide, by decide, ?_, ?_⟩
  · intro v
    simp
  · intro v
    simp
